import Mathlib

/-!
Verification of the job-monitor pipeline (src/main.py): a shallow embedding of
its pure stages (filtering, diffing, persistence round-trips, API-response
normalisation) and an effect-trace model of its notifier, with theorems about
the specified behaviour.
-/

/-- A normalized job listing record, as built throughout `main.py`
(dicts with keys "firm", "title", "location", "link", all strings).
Equality is structural over the four fields, matching Python dict equality. -/
structure JobListing where
  firm : String
  title : String
  location : String
  link : String
  deriving DecidableEq, Repr

/-- Does `needle` occur at the front of `hay`?  Helper for modelling
Python's substring operator `in` on strings. -/
def occursAtFront : List Char → List Char → Bool
  | [], _ => true
  | _ :: _, [] => false
  | n :: ns, h :: hs => n == h && occursAtFront ns hs

/-- Does `needle` occur contiguously anywhere in `hay`?  Models Python's
`needle in hay` on strings (substring containment). -/
def occursIn (needle : List Char) : List Char → Bool
  | [] => needle.isEmpty
  | h :: hs => occursAtFront needle (h :: hs) || occursIn needle hs

/-- Models Python `needle.lower() in hay.lower()`: case-insensitive
substring test as written in `filter_jobs`. -/
def lowerIn (needle hay : String) : Bool :=
  occursIn needle.toLower.toList hay.toLower.toList

/-- `filter_jobs` from main.py lines 101-117: keep a job when some keyword is a
case-insensitive substring of its title and some location string is a
case-insensitive substring of its location. -/
def filter_jobs (jobs : List JobListing) (keywords locations : List String) :
    List JobListing :=
  jobs.filter fun job =>
    keywords.any (fun keyword => lowerIn keyword job.title) &&
    locations.any (fun location => lowerIn location job.location)

/-- `identify_new_jobs` from main.py lines 143-153: keep the current jobs that
do not occur (Python `not in`, i.e. structural equality) in the seen list. -/
def identify_new_jobs (jobs seen_jobs : List JobListing) : List JobListing :=
  jobs.filter fun job => !(seen_jobs.contains job)

theorem occursAtFront_iff (n l : List Char) :
    occursAtFront n l = true ↔ ∃ t, l = n ++ t := by
  induction n generalizing l with
  | nil => simp [occursAtFront]
  | cons c ns ih =>
    cases l with
    | nil => simp [occursAtFront]
    | cons h hs =>
      simp only [occursAtFront, Bool.and_eq_true, beq_iff_eq, ih,
        List.cons_append, List.cons.injEq]
      constructor
      · rintro ⟨hc, t, ht⟩
        exact ⟨t, hc.symm, ht⟩
      · rintro ⟨t, hc, ht⟩
        exact ⟨hc.symm, t, ht⟩

theorem occursIn_iff (n l : List Char) :
    occursIn n l = true ↔ ∃ p t, l = p ++ n ++ t := by
  induction l with
  | nil =>
    simp only [occursIn, List.isEmpty_iff]
    constructor
    · rintro rfl
      exact ⟨[], [], rfl⟩
    · rintro ⟨p, t, ht⟩
      have := ht.symm
      rcases List.append_eq_nil.mp (List.append_eq_nil.mp this).1 with ⟨_, h2⟩
      exact h2
  | cons h hs ih =>
    simp only [occursIn, Bool.or_eq_true, occursAtFront_iff, ih]
    constructor
    · rintro (⟨t, ht⟩ | ⟨p, t, ht⟩)
      · exact ⟨[], t, by simp [ht]⟩
      · exact ⟨h :: p, t, by simp [ht]⟩
    · rintro ⟨p, t, ht⟩
      cases p with
      | nil => exact Or.inl ⟨t, by simpa using ht⟩
      | cons q qs =>
        right
        simp only [List.cons_append, List.cons.injEq] at ht
        exact ⟨qs, t, ht.2⟩

/-- `lowerIn k s` holds exactly when `k` lowercased occurs as a contiguous
substring of `s` lowercased. -/
theorem lowerIn_iff (needle hay : String) :
    lowerIn needle hay = true ↔
      ∃ p t, hay.toLower.toList = p ++ needle.toLower.toList ++ t := by
  exact occursIn_iff _ _

/-- C1: a job is kept by `filter_jobs` iff it is among the input jobs, some
keyword is a case-insensitive substring of its title, and some location
string is a case-insensitive substring of its location (each list OR-matched
internally, the two conditions AND-combined). -/
theorem filter_jobs_keeps_iff (jobs : List JobListing) (ks ls : List String)
    (j : JobListing) :
    j ∈ filter_jobs jobs ks ls ↔
      j ∈ jobs ∧
        (∃ k ∈ ks, ∃ p t, j.title.toLower.toList = p ++ k.toLower.toList ++ t) ∧
        (∃ l ∈ ls, ∃ p t, j.location.toLower.toList = p ++ l.toLower.toList ++ t) := by
  simp [filter_jobs, List.mem_filter, Bool.and_eq_true, List.any_eq_true,
    lowerIn, occursIn_iff]

/-- C2: filtering with an empty keyword list or an empty location list
returns the empty list (empty criteria match nothing). -/
theorem filter_jobs_empty_criteria (jobs : List JobListing)
    (K L : List String) :
    filter_jobs jobs [] L = [] ∧ filter_jobs jobs K [] = [] := by
  constructor <;> simp [filter_jobs]

/-- C10: `filter_jobs` is idempotent, and its output is a subsequence of its
input (every kept element is an input element, in input order). -/
theorem filter_jobs_idem_sublist (jobs : List JobListing)
    (ks ls : List String) :
    filter_jobs (filter_jobs jobs ks ls) ks ls = filter_jobs jobs ks ls ∧
      (filter_jobs jobs ks ls).Sublist jobs := by
  constructor
  · simp [filter_jobs, List.filter_filter]
  · exact List.filter_sublist jobs

/-- C3: the diff engine returns exactly the current listings not present (by
structural equality) in the seen list, preserving input order: it equals a
filter by non-membership, is a subsequence of the input, and its members are
exactly the input members outside the seen list. -/
theorem identify_new_jobs_spec (jobs seen : List JobListing) :
    identify_new_jobs jobs seen =
        jobs.filter (fun j => decide (¬ j ∈ seen)) ∧
      (identify_new_jobs jobs seen).Sublist jobs ∧
      ∀ j, j ∈ identify_new_jobs jobs seen ↔ j ∈ jobs ∧ ¬ j ∈ seen := by
  refine ⟨?_, List.filter_sublist jobs, ?_⟩
  · simp only [identify_new_jobs, List.contains]
    congr 1
    funext j
    simp
  · intro j
    simp [identify_new_jobs, List.mem_filter, List.contains]

/-- C4: diffing against an empty seen list is the identity, and diffing a
list against itself is empty. -/
theorem identify_new_jobs_empty_self (J : List JobListing) :
    identify_new_jobs J [] = J ∧ identify_new_jobs J J = [] := by
  constructor
  · simp [identify_new_jobs]
  · simp [identify_new_jobs, List.filter_eq_nil_iff, List.contains]

/-- JSON values as Python's `json` module produces them.  `null` also stands
for Python `None` (which is exactly what JSON `null` parses to); objects are
association lists in insertion order. -/
inductive Json where
  | null : Json
  | bool (b : Bool) : Json
  | num (n : Int) : Json
  | str (s : String) : Json
  | arr (elems : List Json) : Json
  | obj (fields : List (String × Json)) : Json

/-- Python dict indexing `d[k]` on a JSON object: the value at the first
matching key, or `none` for a KeyError. -/
def jsonLookup : List (String × Json) → String → Option Json
  | [], _ => none
  | (k, v) :: rest, key => if k = key then some v else jsonLookup rest key

/-- Serialisation of one job record as `json.dump` writes it: an object with
the four keys in the insertion order used throughout main.py. -/
def JobListing.toJson (j : JobListing) : Json :=
  Json.obj [("firm", Json.str j.firm), ("title", Json.str j.title),
    ("location", Json.str j.location), ("link", Json.str j.link)]

/-- Reading one job record back from its JSON object form.  `none` stands
for a value that is not a well-formed job record. -/
def JobListing.fromJson : Json → Option JobListing
  | Json.obj [("firm", Json.str f), ("title", Json.str t),
      ("location", Json.str l), ("link", Json.str k)] =>
    some ⟨f, t, l, k⟩
  | _ => none

/-- Reading a list of job records from a list of JSON values; `none` if any
element is not a well-formed record. -/
def decodeJobList : List Json → Option (List JobListing)
  | [] => some []
  | j :: js =>
    match JobListing.fromJson j, decodeJobList js with
    | some a, some rest => some (a :: rest)
    | _, _ => none

/-- Reading a whole store: a JSON array of job records. -/
def decodeJobs : Json → Option (List JobListing)
  | Json.arr js => decodeJobList js
  | _ => none

/-- The file system seen by `load_jobs`/`save_jobs`: each path maps to the
JSON value stored in that file, or `none` when the file does not exist. -/
def FS : Type := String → Option Json

/-- `save_jobs` from main.py lines 133-140: overwrite `filepath` with the
jobs serialised as a JSON array (`json.dump(jobs, f)`). -/
def save_jobs (jobs : List JobListing) (filepath : String) (fs : FS) : FS :=
  fun p =>
    if p = filepath then some (Json.arr (jobs.map JobListing.toJson)) else fs p

/-- `load_jobs` from main.py lines 120-130: parse the JSON stored at
`filepath`; a missing file (FileNotFoundError) yields the empty list.  The
outer `none` stands for a raised error on malformed contents. -/
def load_jobs (filepath : String) (fs : FS) : Option (List JobListing) :=
  match fs filepath with
  | none => some []
  | some j => decodeJobs j

theorem fromJson_toJson (j : JobListing) :
    JobListing.fromJson j.toJson = some j := by
  cases j
  rfl

theorem decodeJobList_map_toJson (X : List JobListing) :
    decodeJobList (X.map JobListing.toJson) = some X := by
  induction X with
  | nil => rfl
  | cons a as ih => simp [decodeJobList, fromJson_toJson, ih]

/-- C5: saving a list of well-formed job records and loading it back from
the same path returns the list unchanged (persistence round-trip). -/
theorem load_save_roundtrip (X : List JobListing) (filepath : String)
    (fs : FS) :
    load_jobs filepath (save_jobs X filepath fs) = some X := by
  simp [load_jobs, save_jobs, decodeJobs, decodeJobList_map_toJson]

/-- C6: loading the seen-jobs store from a path that does not exist returns
the empty list rather than raising an error. -/
theorem load_missing_file (filepath : String) (fs : FS)
    (h : fs filepath = none) :
    load_jobs filepath fs = some [] := by
  simp [load_jobs, h]

/-- C6 witness: loading from an empty file system returns the empty list. -/
theorem load_missing_file_witness :
    load_jobs "jobs.json" (fun _ => none) = some [] :=
  load_missing_file "jobs.json" (fun _ => none) rfl

/-- The response-processing entries of an API target's config dictionary:
which response keys hold the listing array, title, location and link
(`params["key"]`, `params["title"]`, `params["location"]`, `params["link"]`).
An empty `link` models a falsy configured link field. -/
structure ApiParams where
  key : String
  title : String
  location : String
  link : String

/-- The parts of an HTTP response that `call_job_listing_api` inspects:
the status code and the parsed JSON body (`response.json()`). -/
structure HttpResponse where
  status_code : Nat
  body : Json

/-- `call_job_listing_api` from main.py lines 28-43: on status 200 return the
parsed JSON body; otherwise print a diagnostic and fall off the end of the
function, returning Python `None` (modelled by `Json.null`).  The HTTP
exchange itself is modelled by passing the response as a parameter. -/
def call_job_listing_api (_url : String) (_headers : List (String × String))
    (response : HttpResponse) : Json :=
  if response.status_code = 200 then response.body else Json.null

/-- One iteration of the loop in `process_api_response`: build a normalized
record from one element using the configured field names; the link defaults
to "" when no link field is configured.  `none` stands for a raised KeyError
or TypeError (element not a dict, or an expected key absent; field values
are taken to be strings, as the configured mappings point at string
fields). -/
def processJob (firm_name : String) (p : ApiParams) (job : Json) :
    Option JobListing :=
  match job with
  | Json.obj kvs =>
    match jsonLookup kvs p.title, jsonLookup kvs p.location with
    | some (Json.str t), some (Json.str l) =>
      if p.link = "" then some ⟨firm_name, t, l, ""⟩
      else
        match jsonLookup kvs p.link with
        | some (Json.str k) => some ⟨firm_name, t, l, k⟩
        | _ => none
    | _, _ => none
  | _ => none

/-- The `for job in data` loop of `process_api_response` over the elements of
the listing array. -/
def mapApiJobs (firm_name : String) (p : ApiParams) :
    List Json → Option (List JobListing)
  | [] => some []
  | j :: js =>
    match processJob firm_name p j, mapApiJobs firm_name p js with
    | some a, some rest => some (a :: rest)
    | _, _ => none

/-- Iterating `data` after the optional descent: Python iterates a list;
iterating anything non-iterable (or whose elements are not dicts) raises a
TypeError, modelled by `none`. -/
def iterateApiData (firm_name : String) (p : ApiParams) :
    Json → Option (List JobListing)
  | Json.arr js => mapApiJobs firm_name p js
  | _ => none

/-- `process_api_response` from main.py lines 46-70: when `data` is a dict,
first descend into `data[params["key"]]` (KeyError when absent); then map
every element of the resulting array to a normalized record. -/
def process_api_response (data : Json) (firm_name : String) (p : ApiParams) :
    Option (List JobListing) :=
  match data with
  | Json.obj kvs =>
    match jsonLookup kvs p.key with
    | some v => iterateApiData firm_name p v
    | none => none
  | d => iterateApiData firm_name p d

/-- C8: when the top-level JSON value is an object, the normalizer descends
into the configured key to reach the listing array and maps its elements;
when it is already an array, the same mapping is applied directly. -/
theorem process_api_response_descends (kvs : List (String × Json))
    (js : List Json) (firm_name : String) (p : ApiParams)
    (h : jsonLookup kvs p.key = some (Json.arr js)) :
    process_api_response (Json.obj kvs) firm_name p =
        mapApiJobs firm_name p js ∧
      process_api_response (Json.arr js) firm_name p =
        mapApiJobs firm_name p js := by
  constructor
  · simp [process_api_response, h, iterateApiData]
  · rfl

/-- Concrete API params used in witnesses: `{"results": ...}` holds the
array, each element has fields "t", "loc", "url". -/
def sampleParams : ApiParams :=
  ⟨"results", "t", "loc", "url"⟩

/-- A concrete raw listing element for witnesses. -/
def sampleRawJob : Json :=
  Json.obj [("t", Json.str "Software Engineer"),
    ("loc", Json.str "Remote, US"), ("url", Json.str "http://x")]

/-- C8 witness: on `{"results": [job]}` with key "results" configured, the
object-wrapped and bare-array responses both map the one element. -/
theorem process_api_response_descends_witness :
    process_api_response (Json.obj [("results", Json.arr [sampleRawJob])])
        "Acme" sampleParams = mapApiJobs "Acme" sampleParams [sampleRawJob] ∧
      process_api_response (Json.arr [sampleRawJob]) "Acme" sampleParams =
        mapApiJobs "Acme" sampleParams [sampleRawJob] :=
  process_api_response_descends [("results", Json.arr [sampleRawJob])]
    [sampleRawJob] "Acme" sampleParams rfl

/-- C9: on a non-success status the collector yields Python `None`, and
feeding that absent value to the normalizer raises a TypeError (`none`)
rather than returning an empty list — the None branch is reachable and
unguarded downstream. -/
theorem api_failure_flows_to_normalizer :
    call_job_listing_api "http://api" [] ⟨404, Json.arr []⟩ = Json.null ∧
      process_api_response
        (call_job_listing_api "http://api" [] ⟨404, Json.arr []⟩)
        "Acme" sampleParams = none ∧
      (none : Option (List JobListing)) ≠ some [] := by
  refine ⟨rfl, rfl, ?_⟩
  intro h
  cases h

/-- The composed email message (`MIMEText` plus its Subject/From/To
headers). -/
structure EmailMsg where
  subject : String
  fromAddr : String
  toAddr : String
  body : String
  deriving DecidableEq, Repr

/-- One observable action of `send_email_notification`: an environment
variable read, or an SMTP operation. -/
inductive Effect where
  | envRead (name : String) : Effect
  | smtpConnect (host port : String) : Effect
  | smtpStarttls : Effect
  | smtpLogin (user password : String) : Effect
  | smtpSend (msg : EmailMsg) : Effect
  deriving DecidableEq, Repr

/-- Process environment: variable name to value, `none` when unset
(`os.environ[name]` then raises KeyError). -/
def Env : Type := String → Option String

/-- The notification body: one entry per job in the form
"firm - title - location\nlink", joined with newlines. -/
def emailBody (jobs : List JobListing) : String :=
  String.intercalate "\n" (jobs.map fun job =>
    job.firm ++ " - " ++ job.title ++ " - " ++ job.location ++ "\n" ++ job.link)

/-- `send_email_notification` from main.py lines 156-184, as a trace of its
observable effects in program order, paired with `none` when it raises
(missing environment variable).  An empty jobs list returns before anything
else happens.  The environment reads for sender and recipient precede message
composition; host and port are read next; the MAIL_PASSWORD read happens when
the `login` call's argument is evaluated, after connect and starttls.
Closing the SMTP session on `with`-block exit is not an observable action
here. -/
def send_email_notification (jobs : List JobListing) (env : Env) :
    List Effect × Option Unit :=
  if jobs = [] then ([], some ())
  else
    match env "MAIL_SENDER" with
    | none => ([Effect.envRead "MAIL_SENDER"], none)
    | some sender =>
      match env "MAIL_RECIPIENT" with
      | none =>
        ([Effect.envRead "MAIL_SENDER", Effect.envRead "MAIL_RECIPIENT"], none)
      | some recipient =>
        let msg : EmailMsg :=
          ⟨"New MLE Job Openings", sender, recipient, emailBody jobs⟩
        match env "MAIL_HOST" with
        | none =>
          ([Effect.envRead "MAIL_SENDER", Effect.envRead "MAIL_RECIPIENT",
            Effect.envRead "MAIL_HOST"], none)
        | some host =>
          match env "MAIL_PORT" with
          | none =>
            ([Effect.envRead "MAIL_SENDER", Effect.envRead "MAIL_RECIPIENT",
              Effect.envRead "MAIL_HOST", Effect.envRead "MAIL_PORT"], none)
          | some port =>
            match env "MAIL_PASSWORD" with
            | none =>
              ([Effect.envRead "MAIL_SENDER", Effect.envRead "MAIL_RECIPIENT",
                Effect.envRead "MAIL_HOST", Effect.envRead "MAIL_PORT",
                Effect.smtpConnect host port, Effect.smtpStarttls,
                Effect.envRead "MAIL_PASSWORD"], none)
            | some password =>
              ([Effect.envRead "MAIL_SENDER", Effect.envRead "MAIL_RECIPIENT",
                Effect.envRead "MAIL_HOST", Effect.envRead "MAIL_PORT",
                Effect.smtpConnect host port, Effect.smtpStarttls,
                Effect.envRead "MAIL_PASSWORD",
                Effect.smtpLogin sender password,
                Effect.smtpSend msg], some ())

/-- C7: calling the notifier with an empty list of new listings does
nothing: the effect trace is empty (no environment variable read, no SMTP
connection, nothing composed or sent) and it returns normally, for every
environment. -/
theorem send_email_notification_empty (env : Env) :
    send_email_notification [] env = ([], some ()) := by
  simp [send_email_notification]
